import Mathlib

/-!
Verification of the frame-to-GIF pipeline in `src/optimized_functions.py`.

The development shallowly embeds the two operations the claims are about:

* `make_gif_optimized` (lines 46-104): list a directory, keep the `.png`
  entries, sort them lexicographically, keep every second one, load them and
  encode one looping GIF, using an imageio fast path with per-file error
  recovery, or a PIL fallback without it.
* `batch_save_frames` (lines 106-129): validate that the figure and filename
  lists have equal length, then save the figures in fixed-size batches,
  closing each figure right after its own save.

File-system effects are modelled by explicit data: the directory listing is a
`List String`, the result of decoding a file is an oracle
`read : String → Option Img` (`none` models an exception raised by
`imageio.imread` / `PIL.Image.open`), and `time.time()` is modelled by a
clock that advances by a caller-chosen cost for each decode and each encode
call, so that every `end_time - start_time` the code prints is a definite
number.  The external encoders (`imageio.mimsave`, `PIL.Image.save`) are
modelled as constructors of a `GifFile` record holding exactly the data the
code passes them: the output path, the ordered frame list, the per-frame
duration argument, and the GIF loop count (0 meaning loop forever; the PIL
call passes `loop=0` explicitly on line 99, and imageio's GIF writer loops
forever by default when `mimsave` is given no loop argument, as on line 81).
-/

namespace OptimizedFunctions

/-- An abstract decoded in-memory image (a pixel buffer); its contents never
matter to the pipeline, only identity and count. -/
abbrev Img := Nat

/-- An abstract matplotlib figure handle for the batch writer. -/
abbrev Fig := Nat

/-- `os.path.join frame_folder filename` for the relative filenames produced
by `os.listdir`. -/
def osPathJoin (a b : String) : String := a ++ "/" ++ b

/-- Python's `<` on strings: lexicographic comparison of the code-point
sequences, a proper prefix being smaller. -/
def charListLt : List Char → List Char → Bool
  | _, [] => false
  | [], _ :: _ => true
  | a :: as, b :: bs =>
      if a.toNat < b.toNat then true
      else if b.toNat < a.toNat then false
      else charListLt as bs

/-- `a < b` for Python strings. -/
def strLt (a b : String) : Bool := charListLt a.data b.data

/-- Python's `s.endswith(t)`. -/
def strEndsWith (s t : String) : Bool := t.data.isSuffixOf s.data

/-- One insertion step of a stable ascending insertion sort: `a` goes in
front of the first element it is not greater than. -/
def insertSorted (a : String) : List String → List String
  | [] => [a]
  | b :: l => if strLt b a then b :: insertSorted a l else a :: b :: l

/-- Python's `sorted` on a list of strings: stable, ascending, comparing by
`<` on code-point sequences. -/
def pySorted : List String → List String
  | [] => []
  | a :: l => insertSorted a (pySorted l)

/-- Line 60: `sorted([f for f in os.listdir(frame_folder) if f.endswith('.png')])` —
the `.png` entries of the listing in lexicographically ascending order. -/
def pngSorted (listing : List String) : List String :=
  pySorted (listing.filter (fun f => strEndsWith f ".png"))

/-- Line 61: the slice `png_files[::2]` — the elements at even zero-based
positions. -/
def everySecond : List α → List α
  | [] => []
  | [a] => [a]
  | a :: _ :: rest => a :: everySecond rest

/-- Lines 60-61 together: the retained frame list of a directory listing. -/
def retainedFiles (listing : List String) : List String :=
  everySecond (pngSorted listing)

/-- The data `make_gif_optimized` hands to the encoding backend: output path,
ordered frame list, the caller's per-frame duration, and the GIF loop count
(`0` = loop forever). -/
structure GifFile where
  path : String
  frames : List Img
  duration : ℚ
  loop : Nat
deriving Repr, DecidableEq

/-- The observable outcome of one `make_gif_optimized` call.  `noFrames` is
the early return of lines 65-67 (and the dead `else` of line 103-104);
`written gif reportedFrames reportedTime` records the encoded file together
with the frame count and the wall-clock seconds printed afterwards;
`errored p` is an exception escaping the call while opening file `p` in the
PIL fallback (line 87). -/
inductive GifOutcome where
  | noFrames
  | written (gif : GifFile) (reportedFrames : Nat) (reportedTime : Nat)
  | errored (path : String)
deriving Repr, DecidableEq

/-- Lines 71-77: the fast-path load loop.  Each file is read inside a
`try/except`; a successful read is appended to `images`, a failed read is
only logged and skipped.  The clock advances by `readCost` of the path in
either case.  Returns the accumulated images and the clock value. -/
def imageioLoadLoop (read : String → Option Img) (readCost : String → Nat)
    (frame_folder : String) : List String → List Img × Nat → List Img × Nat
  | [], acc => acc
  | f :: rest, (images, clock) =>
      match read (osPathJoin frame_folder f) with
      | some img =>
          imageioLoadLoop read readCost frame_folder rest
            (images ++ [img], clock + readCost (osPathJoin frame_folder f))
      | none =>
          imageioLoadLoop read readCost frame_folder rest
            (images, clock + readCost (osPathJoin frame_folder f))

/-- Line 87: the fallback list comprehension
`[Image.open(os.path.join(frame_folder, image)) for image in png_files]`.
There is no exception handler, so the first failing open aborts the whole
call with that path; on success it returns the loaded frames in order and
the total time the loads took. -/
def pilLoadFrames (read : String → Option Img) (readCost : String → Nat)
    (frame_folder : String) : List String → Except String (List Img × Nat)
  | [] => .ok ([], 0)
  | f :: rest =>
      match read (osPathJoin frame_folder f) with
      | none => .error (osPathJoin frame_folder f)
      | some img =>
          match pilLoadFrames read readCost frame_folder rest with
          | .error p => .error p
          | .ok (imgs, c) => .ok (img :: imgs, readCost (osPathJoin frame_folder f) + c)

/-- Lines 46-104, `make_gif_optimized`.  Arguments: whether `frame_folder`
exists, its listing when it does (a directory created by `os.makedirs` on
line 57 is empty), the decode oracle and cost model, the encode cost, and
the Python parameters.  Returns whether the folder exists after the call
together with the `GifOutcome`.

The fast path (lines 69-83) takes `start_time` after the load loop, so its
printed time is the encode cost alone; the fallback (lines 84-104) takes
`start_time` on line 86, before loading, so its printed time is the load
cost plus the encode cost.  The fallback save (lines 93-100) writes
`frames[0]` followed by `append_images=frames[1:]`, i.e. the whole `frames`
list, with `loop=0`. -/
def make_gif_optimized (folderExists : Bool) (listing : List String)
    (read : String → Option Img) (readCost : String → Nat) (encodeCost : Nat)
    (frame_folder : String) (duration : ℚ) (name : String)
    (use_imageio imageio_available : Bool) : Bool × GifOutcome :=
  let listingAfter := if folderExists then listing else []
  let png_files := everySecond (pngSorted listingAfter)
  if png_files = [] then
    (true, .noFrames)
  else if use_imageio && imageio_available then
    let loaded := imageioLoadLoop read readCost frame_folder png_files ([], 0)
    let images := loaded.1
    let gif_path := osPathJoin frame_folder (name ++ ".gif")
    (true, .written ⟨gif_path, images, duration, 0⟩ images.length encodeCost)
  else
    match pilLoadFrames read readCost frame_folder png_files with
    | .error p => (true, .errored p)
    | .ok (frames, loadCost) =>
        if frames = [] then
          (true, .noFrames)
        else
          let gif_path := osPathJoin frame_folder (name ++ ".gif")
          (true, .written ⟨gif_path, frames, duration, 0⟩ frames.length (loadCost + encodeCost))

/-- One observable file-system / resource event of `batch_save_frames`:
`save fig filename dpi` is a completed `save_frame_optimized` call (lines
33-42: one `fig.savefig(filename, ..., dpi=dpi, ...)` that returned), and
`close fig` is the `plt.close(fig)` of line 129. -/
inductive Ev where
  | save (fig : Fig) (filename : String) (dpi : Nat)
  | close (fig : Fig)
deriving Repr, DecidableEq

/-- The exception ending a `batch_save_frames` call early: the length check
of lines 116-117 (`ValueError`), or an exception raised inside
`fig.savefig` for some figure and filename. -/
inductive BatchErr where
  | mismatch
  | saveFailed (fig : Fig) (filename : String)
deriving Repr, DecidableEq

/-- What one `batch_save_frames` call did: the events it performed, in
order, before returning (`error = none`) or before an exception escaped
(`error = some e`). -/
structure BatchOutcome where
  events : List Ev
  error : Option BatchErr
deriving Repr, DecidableEq

/-- Lines 127-129: the inner loop over `zip(batch_figures, batch_filenames)`.
`saveOk` tells whether `fig.savefig` succeeds for a figure/filename pair; on
success the save is followed immediately by `plt.close(fig)`; on failure the
exception propagates at once, so no event is recorded for that pair — in
particular the figure is NOT closed — and the loop stops. -/
def saveCloseLoop (saveOk : Fig → String → Bool) (dpi : Nat) :
    List (Fig × String) → List Ev × Option BatchErr
  | [] => ([], none)
  | (fig, fname) :: rest =>
      if saveOk fig fname then
        let tail := saveCloseLoop saveOk dpi rest
        (Ev.save fig fname dpi :: Ev.close fig :: tail.1, tail.2)
      else
        ([], some (.saveFailed fig fname))

/-- Lines 120-129: `for i in range(0, total, batch_size)` with
`batch_end = min(i + batch_size, total)` and the Python slices
`figures[i:batch_end]`, `filenames[i:batch_end]`.  The loop is written with
explicit fuel; `figures.length` units of fuel are enough for any
`batch_size ≥ 1` (Python raises on `batch_size = 0` before looping, so that
case is outside the model).  An exception inside a batch escapes the whole
loop. -/
def batchLoop (figures : List Fig) (filenames : List String)
    (saveOk : Fig → String → Bool) (dpi batch_size : Nat) :
    Nat → Nat → List Ev × Option BatchErr
  | 0, _ => ([], none)
  | fuel + 1, i =>
      if i < figures.length then
        let batch_figures := (figures.drop i).take batch_size
        let batch_filenames := (filenames.drop i).take batch_size
        let batch := saveCloseLoop saveOk dpi (batch_figures.zip batch_filenames)
        match batch.2 with
        | some e => (batch.1, some e)
        | none =>
            let tail := batchLoop figures filenames saveOk dpi batch_size fuel (i + batch_size)
            (batch.1 ++ tail.1, tail.2)
      else ([], none)

/-- Lines 106-129, `batch_save_frames`.  Lines 116-117 raise `ValueError`
before any per-item work when the input lengths differ; otherwise the
batched loop runs from `i = 0`. -/
def batch_save_frames (figures : List Fig) (filenames : List String)
    (saveOk : Fig → String → Bool) (dpi : Nat) (batch_size : Nat) : BatchOutcome :=
  if figures.length ≠ filenames.length then
    ⟨[], some .mismatch⟩
  else
    let r := batchLoop figures filenames saveOk dpi batch_size figures.length 0
    ⟨r.1, r.2⟩

/-! ### Helper lemmas -/

theorem length_insertSorted (a : String) (l : List String) :
    (insertSorted a l).length = l.length + 1 := by
  induction l with
  | nil => rfl
  | cons b l ih =>
      simp only [insertSorted]
      split <;> simp [ih]

theorem length_pySorted (l : List String) : (pySorted l).length = l.length := by
  induction l with
  | nil => rfl
  | cons a l ih => simp [pySorted, length_insertSorted, ih]

theorem length_everySecond (l : List α) : (everySecond l).length = (l.length + 1) / 2 := by
  induction l using everySecond.induct with
  | case1 => simp [everySecond]
  | case2 a => simp [everySecond]
  | case3 a b rest ih =>
      simp only [everySecond, List.length_cons, ih]
      omega

theorem everySecond_getElem? (l : List α) (i : Nat) :
    (everySecond l)[i]? = l[2 * i]? := by
  induction l using everySecond.induct generalizing i with
  | case1 => simp [everySecond]
  | case2 a =>
      match i with
      | 0 => simp [everySecond]
      | i + 1 => simp [everySecond, Nat.mul_succ]
  | case3 a b rest ih =>
      match i with
      | 0 => simp [everySecond]
      | i + 1 =>
          have h2 : 2 * (i + 1) = 2 * i + 1 + 1 := by omega
          simp [everySecond, h2, ih]

theorem imageioLoadLoop_spec (read : String → Option Img) (readCost : String → Nat)
    (folder : String) (files : List String) (acc : List Img) (c : Nat) :
    imageioLoadLoop read readCost folder files (acc, c) =
      (acc ++ files.filterMap (fun f => read (osPathJoin folder f)),
       c + (files.map (fun f => readCost (osPathJoin folder f))).sum) := by
  induction files generalizing acc c with
  | nil => simp [imageioLoadLoop]
  | cons f rest ih =>
      simp only [imageioLoadLoop]
      cases h : read (osPathJoin folder f) with
      | none => simp [h, ih, List.filterMap_cons, Nat.add_assoc]
      | some img => simp [h, ih, List.filterMap_cons, Nat.add_assoc]

theorem pilLoadFrames_error_of_bad (read : String → Option Img) (readCost : String → Nat)
    (folder : String) (files : List String)
    (h : ∃ f ∈ files, read (osPathJoin folder f) = none) :
    ∃ p, pilLoadFrames read readCost folder files = .error p := by
  induction files with
  | nil => simp at h
  | cons f rest ih =>
      simp only [pilLoadFrames]
      cases hf : read (osPathJoin folder f) with
      | none => exact ⟨osPathJoin folder f, rfl⟩
      | some img =>
          have hrest : ∃ g ∈ rest, read (osPathJoin folder g) = none := by
            rcases h with ⟨g, hg, hgn⟩
            rcases List.mem_cons.mp hg with rfl | hgr
            · rw [hf] at hgn; cases hgn
            · exact ⟨g, hgr, hgn⟩
          rcases ih hrest with ⟨p, hp⟩
          rw [hp]
          exact ⟨p, rfl⟩

theorem pilLoadFrames_ok_of_good (read : String → Option Img) (readCost : String → Nat)
    (folder : String) (files : List String)
    (h : ∀ f ∈ files, (read (osPathJoin folder f)).isSome) :
    pilLoadFrames read readCost folder files =
      .ok (files.filterMap (fun f => read (osPathJoin folder f)),
           (files.map (fun f => readCost (osPathJoin folder f))).sum) := by
  induction files with
  | nil => simp [pilLoadFrames]
  | cons f rest ih =>
      have hf := h f (List.mem_cons_self f rest)
      rcases Option.isSome_iff_exists.mp hf with ⟨img, himg⟩
      have hrest : ∀ g ∈ rest, (read (osPathJoin folder g)).isSome :=
        fun g hg => h g (List.mem_cons_of_mem f hg)
      simp only [pilLoadFrames, himg, ih hrest, List.filterMap_cons, List.map_cons,
        List.sum_cons]

theorem length_filterMap_of_isSome (g : α → Option β) (l : List α)
    (h : ∀ a ∈ l, (g a).isSome) : (l.filterMap g).length = l.length := by
  induction l with
  | nil => rfl
  | cons a rest ih =>
      have ha := h a (List.mem_cons_self a rest)
      rcases Option.isSome_iff_exists.mp ha with ⟨b, hb⟩
      have hrest : ∀ x ∈ rest, (g x).isSome := fun x hx => h x (List.mem_cons_of_mem a hx)
      simp [List.filterMap_cons, hb, ih hrest]

theorem zip_take_eq (l1 : List α) (l2 : List β) (n : Nat) :
    (l1.take n).zip (l2.take n) = (l1.zip l2).take n := by
  induction l1 generalizing l2 n with
  | nil => simp
  | cons a l1 ih =>
      cases l2 with
      | nil => simp
      | cons b l2 =>
          cases n with
          | zero => simp
          | succ n => simp [ih]

theorem zip_drop_eq (l1 : List α) (l2 : List β) (n : Nat) :
    (l1.drop n).zip (l2.drop n) = (l1.zip l2).drop n := by
  induction l1 generalizing l2 n with
  | nil => simp
  | cons a l1 ih =>
      cases l2 with
      | nil => simp
      | cons b l2 =>
          cases n with
          | zero => simp
          | succ n => simp [ih]

/-- The two events a successful save of one figure/filename pair produces,
in order: the completed write, then the immediate close. -/
def pairEvents (dpi : Nat) (p : Fig × String) : List Ev :=
  [Ev.save p.1 p.2 dpi, Ev.close p.1]

theorem saveCloseLoop_all_ok (saveOk : Fig → String → Bool) (dpi : Nat)
    (pairs : List (Fig × String)) (h : ∀ p ∈ pairs, saveOk p.1 p.2 = true) :
    saveCloseLoop saveOk dpi pairs = (pairs.flatMap (pairEvents dpi), none) := by
  induction pairs with
  | nil => simp [saveCloseLoop]
  | cons p rest ih =>
      have hp := h p (List.mem_cons_self p rest)
      have hrest : ∀ q ∈ rest, saveOk q.1 q.2 = true :=
        fun q hq => h q (List.mem_cons_of_mem p hq)
      cases p with
      | mk fig fname =>
          simp [saveCloseLoop, hp, ih hrest, pairEvents]

theorem batchLoop_all_ok (figures : List Fig) (filenames : List String)
    (saveOk : Fig → String → Bool) (dpi bs : Nat)
    (hok : ∀ p ∈ figures.zip filenames, saveOk p.1 p.2 = true) :
    ∀ fuel i, figures.length ≤ i + fuel * bs →
      batchLoop figures filenames saveOk dpi bs fuel i =
        (((figures.zip filenames).drop i).flatMap (pairEvents dpi), none) := by
  intro fuel
  induction fuel with
  | zero =>
      intro i hi
      have hdrop : (figures.zip filenames).drop i = [] := by
        apply List.drop_eq_nil_of_le
        rw [List.length_zip]
        omega
      simp [batchLoop, hdrop]
  | succ fuel ih =>
      intro i hi
      simp only [batchLoop]
      by_cases hcase : i < figures.length
      · rw [if_pos hcase]
        have hzip : ((figures.drop i).take bs).zip ((filenames.drop i).take bs)
            = ((figures.zip filenames).drop i).take bs := by
          rw [zip_take_eq, zip_drop_eq]
        have hmem : ∀ p ∈ ((figures.zip filenames).drop i).take bs, saveOk p.1 p.2 = true :=
          fun p hp => hok p (List.drop_subset _ _ (List.take_subset _ _ hp))
        rw [hzip, saveCloseLoop_all_ok _ _ _ hmem]
        have htail : figures.length ≤ (i + bs) + fuel * bs := by
          have : (fuel + 1) * bs = bs + fuel * bs := by ring
          omega
        simp only [ih (i + bs) htail]
        have hdd : (figures.zip filenames).drop (i + bs)
            = (((figures.zip filenames).drop i).drop bs) := by
          rw [List.drop_drop, Nat.add_comm]
        rw [hdd, ← List.flatMap_append, List.take_append_drop]
      · rw [if_neg hcase]
        have hdrop : (figures.zip filenames).drop i = [] := by
          apply List.drop_eq_nil_of_le
          rw [List.length_zip]
          omega
        simp [hdrop]

/-- Characterization of the fast (imageio) path on an existing folder with a
non-empty retained list: the outcome is a written GIF whose frames are the
successfully decoded files in order, whose reported frame count is their
number, and whose reported time is the encode cost alone. -/
theorem fast_written_eq (listing : List String) (read : String → Option Img)
    (readCost : String → Nat) (encodeCost : Nat) (frame_folder : String)
    (duration : ℚ) (name : String) (hne : retainedFiles listing ≠ []) :
    (make_gif_optimized true listing read readCost encodeCost frame_folder duration name
        true true).2
      = .written ⟨osPathJoin frame_folder (name ++ ".gif"),
                  (retainedFiles listing).filterMap (fun f => read (osPathJoin frame_folder f)),
                  duration, 0⟩
          ((retainedFiles listing).filterMap (fun f => read (osPathJoin frame_folder f))).length
          encodeCost := by
  rw [retainedFiles] at hne
  simp only [make_gif_optimized, if_pos rfl, if_neg hne, Bool.and_self, if_true,
    imageioLoadLoop_spec, List.nil_append, retainedFiles]

/-- Characterization of the fallback (PIL) path when every retained frame is
readable: the outcome is a written GIF with the same frames, and the
reported time is the total load cost plus the encode cost, the timer having
been started before the loads. -/
theorem fallback_written_eq (listing : List String) (read : String → Option Img)
    (readCost : String → Nat) (encodeCost : Nat) (frame_folder : String)
    (duration : ℚ) (name : String) (ui avail : Bool) (hfb : (ui && avail) = false)
    (hne : retainedFiles listing ≠ [])
    (hok : ∀ f ∈ retainedFiles listing, (read (osPathJoin frame_folder f)).isSome) :
    (make_gif_optimized true listing read readCost encodeCost frame_folder duration name
        ui avail).2
      = .written ⟨osPathJoin frame_folder (name ++ ".gif"),
                  (retainedFiles listing).filterMap (fun f => read (osPathJoin frame_folder f)),
                  duration, 0⟩
          ((retainedFiles listing).filterMap (fun f => read (osPathJoin frame_folder f))).length
          (((retainedFiles listing).map (fun f => readCost (osPathJoin frame_folder f))).sum
            + encodeCost) := by
  have hlen : ((retainedFiles listing).filterMap
      (fun f => read (osPathJoin frame_folder f))).length = (retainedFiles listing).length :=
    length_filterMap_of_isSome _ _ hok
  have hfmne : (retainedFiles listing).filterMap
      (fun f => read (osPathJoin frame_folder f)) ≠ [] := by
    intro h
    apply hne
    have := hlen
    rw [h] at this
    exact List.length_eq_zero.mp this.symm
  rw [retainedFiles] at hne hok hfmne ⊢
  simp only [make_gif_optimized, if_pos rfl, if_true, if_neg hne, hfb, Bool.false_eq_true,
    if_false, pilLoadFrames_ok_of_good read readCost frame_folder _ hok, if_neg hfmne]

/-- Characterization of the fallback (PIL) path when some retained frame is
unreadable: the call aborts with an exception carrying a file path, and no
GIF is written. -/
theorem fallback_error_eq (listing : List String) (read : String → Option Img)
    (readCost : String → Nat) (encodeCost : Nat) (frame_folder : String)
    (duration : ℚ) (name : String) (ui avail : Bool) (hfb : (ui && avail) = false)
    (hbad : ∃ f ∈ retainedFiles listing, read (osPathJoin frame_folder f) = none) :
    ∃ p, (make_gif_optimized true listing read readCost encodeCost frame_folder duration name
        ui avail).2 = .errored p := by
  have hne : retainedFiles listing ≠ [] := by
    rcases hbad with ⟨f, hf, _⟩
    intro h
    rw [h] at hf
    simp at hf
  rw [retainedFiles] at hne hbad
  rcases pilLoadFrames_error_of_bad read readCost frame_folder _ hbad with ⟨p, hp⟩
  refine ⟨p, ?_⟩
  simp only [make_gif_optimized, if_pos rfl, if_true, if_neg hne, hfb, Bool.false_eq_true,
    if_false, hp]

/-! ### Claim theorems -/

/-- C1: for every directory listing, `make_gif_optimized` retains exactly
`ceil(N/2)` frames, where `N` is the number of `.png` entries, and the
retained frames are exactly the entries at even zero-based positions of the
lexicographically ascending sorted `.png` list (`(N + 1) / 2` is `ceil(N/2)`
in natural-number arithmetic). -/
theorem retained_count_and_positions (listing : List String) :
    (retainedFiles listing).length
        = ((listing.filter (fun f => strEndsWith f ".png")).length + 1) / 2
    ∧ ∀ i : Nat, (retainedFiles listing)[i]? = (pngSorted listing)[2 * i]? := by
  constructor
  · rw [retainedFiles, length_everySecond, pngSorted, length_pySorted]
  · intro i
    exact everySecond_getElem? _ i

/-- C2: whenever `make_gif_optimized` writes an output animation — on either
backend, for any frame count — the written GIF has loop count 0 (loop
forever) and carries the caller's duration argument as its uniform per-frame
duration. -/
theorem written_gif_loop_and_duration (folderExists : Bool) (listing : List String)
    (read : String → Option Img) (readCost : String → Nat) (encodeCost : Nat)
    (frame_folder : String) (duration : ℚ) (name : String) (ui avail : Bool)
    (gif : GifFile) (n t : Nat)
    (h : (make_gif_optimized folderExists listing read readCost encodeCost frame_folder
            duration name ui avail).2 = .written gif n t) :
    gif.loop = 0 ∧ gif.duration = duration := by
  simp only [make_gif_optimized] at h
  repeat' split at h
  all_goals simp_all
  all_goals rw [← h.1]
  all_goals exact ⟨rfl, rfl⟩

/-- Witness for C2 at a concrete input: one readable frame on the fast
path. -/
theorem written_gif_loop_and_duration_witness :
    (⟨"d/demo.gif", [5], 1, 0⟩ : GifFile).loop = 0
    ∧ (⟨"d/demo.gif", [5], 1, 0⟩ : GifFile).duration = 1 :=
  written_gif_loop_and_duration true ["a.png"] (fun _ => some 5) (fun _ => 4) 3 "d" 1 "demo"
    true true ⟨"d/demo.gif", [5], 1, 0⟩ 1 3 (by decide)

/-- C3: a missing `frame_folder` is created (the folder exists after the
call) and the call returns the logged no-op outcome without writing a file
and without an error; likewise, an existing folder whose retained frame list
is empty yields the same no-op outcome. -/
theorem missing_folder_and_empty_stride_noop (listing : List String)
    (read : String → Option Img) (readCost : String → Nat) (encodeCost : Nat)
    (frame_folder : String) (duration : ℚ) (name : String) (ui avail : Bool) :
    make_gif_optimized false listing read readCost encodeCost frame_folder duration name
        ui avail = (true, .noFrames)
    ∧ (retainedFiles listing = [] →
        make_gif_optimized true listing read readCost encodeCost frame_folder duration name
          ui avail = (true, .noFrames)) := by
  constructor
  · simp [make_gif_optimized, pngSorted, pySorted, everySecond]
  · intro h
    rw [retainedFiles] at h
    simp [make_gif_optimized, h]

/-- Witness for C3 at a concrete input: a folder holding no `.png` file. -/
theorem missing_folder_and_empty_stride_noop_witness :
    make_gif_optimized true ["notes.txt"] (fun _ => some 0) (fun _ => 1) 2 "d" 1 "animation"
      true true = (true, .noFrames) :=
  (missing_folder_and_empty_stride_noop ["notes.txt"] (fun _ => some 0) (fun _ => 1) 2 "d" 1
    "animation" true true).2 (by decide)

/-- C4: on the fast (imageio) path, an unreadable frame is skipped and the
remaining frames are still loaded, in order, and handed to the encoder: the
written frames are exactly the successful decodes (`filterMap`) of the
retained list, and the call still completes with a written file. -/
theorem fast_path_skips_unreadable_frames (listing : List String)
    (read : String → Option Img) (readCost : String → Nat) (encodeCost : Nat)
    (frame_folder : String) (duration : ℚ) (name : String)
    (hne : retainedFiles listing ≠ []) :
    (make_gif_optimized true listing read readCost encodeCost frame_folder duration name
        true true).2
      = .written ⟨osPathJoin frame_folder (name ++ ".gif"),
                  (retainedFiles listing).filterMap (fun f => read (osPathJoin frame_folder f)),
                  duration, 0⟩
          ((retainedFiles listing).filterMap (fun f => read (osPathJoin frame_folder f))).length
          encodeCost :=
  fast_written_eq listing read readCost encodeCost frame_folder duration name hne

/-- Witness for C4 at a concrete input: of the two retained frames, the
first is unreadable and only the second is encoded; the call still writes
the file. -/
theorem fast_path_skips_unreadable_frames_witness :
    (make_gif_optimized true ["a.png", "b.png", "c.png"]
        (fun p => if p = "d/a.png" then none else some 5) (fun _ => 4) 3 "d" 1 "demo"
        true true).2
      = .written ⟨"d/demo.gif", [5], 1, 0⟩ 1 3 := by
  have h := fast_path_skips_unreadable_frames ["a.png", "b.png", "c.png"]
    (fun p => if p = "d/a.png" then none else some 5) (fun _ => 4) 3 "d" 1 "demo" (by decide)
  rw [h]
  decide

/-- C5: on the fallback (PIL) path, a single unreadable retained frame
aborts the whole operation with an exception carrying a file path, and no
output file is written (the outcome is `errored`, not `written`). -/
theorem fallback_aborts_on_unreadable_frame (listing : List String)
    (read : String → Option Img) (readCost : String → Nat) (encodeCost : Nat)
    (frame_folder : String) (duration : ℚ) (name : String) (ui avail : Bool)
    (hfb : (ui && avail) = false)
    (hbad : ∃ f ∈ retainedFiles listing, read (osPathJoin frame_folder f) = none) :
    ∃ p, (make_gif_optimized true listing read readCost encodeCost frame_folder duration name
        ui avail).2 = .errored p :=
  fallback_error_eq listing read readCost encodeCost frame_folder duration name ui avail
    hfb hbad

/-- Witness for C5 at a concrete input: one retained frame, unreadable, on
the fallback path. -/
theorem fallback_aborts_on_unreadable_frame_witness :
    ∃ p, (make_gif_optimized true ["a.png"] (fun _ => none) (fun _ => 4) 3 "d" 1 "demo"
        false true).2 = .errored p :=
  fallback_aborts_on_unreadable_frame ["a.png"] (fun _ => none) (fun _ => 4) 3 "d" 1 "demo"
    false true (by decide) ⟨"a.png", by decide, rfl⟩

/-- C6: whenever the figure and filename lists have different lengths,
`batch_save_frames` raises the validation failure at once: the error is
`mismatch` and the event list is empty, so no file was written and no
per-item processing happened. -/
theorem batch_mismatch_validation (figures : List Fig) (filenames : List String)
    (saveOk : Fig → String → Bool) (dpi batch_size : Nat)
    (h : figures.length ≠ filenames.length) :
    batch_save_frames figures filenames saveOk dpi batch_size = ⟨[], some .mismatch⟩ := by
  simp [batch_save_frames, h]

/-- Witness for C6 at a concrete input: one figure, two filenames. -/
theorem batch_mismatch_validation_witness :
    batch_save_frames [7] ["a.png", "b.png"] (fun _ _ => true) 150 5 = ⟨[], some .mismatch⟩ :=
  batch_mismatch_validation [7] ["a.png", "b.png"] (fun _ _ => true) 150 5 (by decide)

/-- C7 counterexample: one figure whose write fails.  The claim says the
figure's resources are released exactly once "including when the write
itself fails", but `plt.close(fig)` is on the line after the save with no
`try/finally`, so when `fig.savefig` raises, the exception propagates and
the figure is never closed: the event trace holds no close for it. -/
theorem close_skipped_when_save_fails :
    (batch_save_frames [7] ["a.png"] (fun _ _ => false) 150 5).events.count (Ev.close 7) = 0
    ∧ ¬ (batch_save_frames [7] ["a.png"] (fun _ _ => false) 150 5).events.count (Ev.close 7)
          = 1
    ∧ (batch_save_frames [7] ["a.png"] (fun _ _ => false) 150 5).error
        = some (BatchErr.saveFailed 7 "a.png") := by
  decide

/-- C7 amended: for equal-length lists of `L` figures and filenames, a
positive batch size, and writes that all succeed, `batch_save_frames`
performs exactly the trace save-then-close, pair by pair in input order —
so exactly `L` files are written, each at the caller's dpi, and each figure
is closed exactly once, immediately after its own write.  When a write
fails, the exception propagates at once and that figure is not closed (see
the counterexample). -/
theorem batch_success_trace (figures : List Fig) (filenames : List String)
    (saveOk : Fig → String → Bool) (dpi bs : Nat)
    (hlen : figures.length = filenames.length) (hbs : 1 ≤ bs)
    (hok : ∀ p ∈ figures.zip filenames, saveOk p.1 p.2 = true) :
    batch_save_frames figures filenames saveOk dpi bs
      = ⟨(figures.zip filenames).flatMap (pairEvents dpi), none⟩ := by
  have hfuel : figures.length ≤ 0 + figures.length * bs := by
    have := Nat.le_mul_of_pos_right figures.length hbs
    omega
  have hloop := batchLoop_all_ok figures filenames saveOk dpi bs hok figures.length 0 hfuel
  simp only [batch_save_frames, hloop, List.drop_zero]
  rw [if_neg (not_not_intro hlen)]

/-- Witness for the amended C7: three figures in batches of two; the trace
is save/close/save/close/save/close in input order at the caller's dpi. -/
theorem batch_success_trace_witness :
    batch_save_frames [7, 8, 9] ["a.png", "b.png", "c.png"] (fun _ _ => true) 150 2
      = ⟨[Ev.save 7 "a.png" 150, Ev.close 7, Ev.save 8 "b.png" 150, Ev.close 8,
          Ev.save 9 "c.png" 150, Ev.close 9], none⟩ := by
  have h := batch_success_trace [7, 8, 9] ["a.png", "b.png", "c.png"] (fun _ _ => true) 150 2
    (by decide) (by decide) (by decide)
  rw [h]
  decide

/-- C8: on the same existing directory whose retained frames are all
readable, the fast backend and the fallback backend write the same `GifFile`
— same path, same frames (hence same frame count), same per-frame duration,
same infinite-loop setting — differing only in the reported wall-clock
time. -/
theorem backends_write_same_gif (listing : List String) (read : String → Option Img)
    (readCost : String → Nat) (encodeCost : Nat) (frame_folder : String)
    (duration : ℚ) (name : String) (hne : retainedFiles listing ≠ [])
    (hok : ∀ f ∈ retainedFiles listing, (read (osPathJoin frame_folder f)).isSome) :
    ∃ gif tFast tSlow,
      (make_gif_optimized true listing read readCost encodeCost frame_folder duration name
          true true).2 = .written gif gif.frames.length tFast
      ∧ (make_gif_optimized true listing read readCost encodeCost frame_folder duration name
          true false).2 = .written gif gif.frames.length tSlow
      ∧ gif.frames.length = (retainedFiles listing).length
      ∧ gif.duration = duration
      ∧ gif.loop = 0
      ∧ gif.path = osPathJoin frame_folder (name ++ ".gif") := by
  refine ⟨⟨osPathJoin frame_folder (name ++ ".gif"),
           (retainedFiles listing).filterMap (fun f => read (osPathJoin frame_folder f)),
           duration, 0⟩,
          encodeCost,
          ((retainedFiles listing).map (fun f => readCost (osPathJoin frame_folder f))).sum
            + encodeCost,
          ?_, ?_, ?_, rfl, rfl, rfl⟩
  · exact fast_written_eq listing read readCost encodeCost frame_folder duration name hne
  · exact fallback_written_eq listing read readCost encodeCost frame_folder duration name
      true false rfl hne hok
  · exact length_filterMap_of_isSome _ _ hok

/-- Witness for C8 at a concrete input: three `.png` files, all readable,
on both backends. -/
theorem backends_write_same_gif_witness :
    ∃ gif tFast tSlow,
      (make_gif_optimized true ["a.png", "b.png", "c.png"] (fun _ => some 6) (fun _ => 4) 3
          "d" 1 "demo" true true).2 = .written gif gif.frames.length tFast
      ∧ (make_gif_optimized true ["a.png", "b.png", "c.png"] (fun _ => some 6) (fun _ => 4) 3
          "d" 1 "demo" true false).2 = .written gif gif.frames.length tSlow
      ∧ gif.frames.length = (retainedFiles ["a.png", "b.png", "c.png"]).length
      ∧ gif.duration = 1
      ∧ gif.loop = 0
      ∧ gif.path = osPathJoin "d" ("demo" ++ ".gif") :=
  backends_write_same_gif ["a.png", "b.png", "c.png"] (fun _ => some 6) (fun _ => 4) 3 "d" 1
    "demo" (by decide) (by decide)

/-- C9 counterexample: fallback path, one retained frame with load cost 4
and encode cost 3.  The reported wall-clock time is 7 — the loading phase
is included — while a time measuring the encode step specifically would be
3, so the claim's "excludes the frame-loading phase ... in both the fast
backend and the fallback backend" is false on the fallback backend. -/
theorem fallback_reported_time_includes_load :
    (make_gif_optimized true ["a.png"] (fun _ => some 5) (fun _ => 4) 3 "d" 1 "demo"
        false true).2
      = .written ⟨"d/demo.gif", [5], 1, 0⟩ 1 7
    ∧ (7 : Nat) ≠ 3 := by
  decide

/-- C9 amended: after a successful encode both backends report the frame
count and the output path, but only the fast backend's time measures the
encode step specifically; the fallback starts its timer before loading, so
it reports load cost plus encode cost. -/
theorem reported_stats_and_timing (listing : List String) (read : String → Option Img)
    (readCost : String → Nat) (encodeCost : Nat) (frame_folder : String)
    (duration : ℚ) (name : String) (hne : retainedFiles listing ≠ [])
    (hok : ∀ f ∈ retainedFiles listing, (read (osPathJoin frame_folder f)).isSome) :
    (∃ gif n, (make_gif_optimized true listing read readCost encodeCost frame_folder duration
          name true true).2 = .written gif n encodeCost
        ∧ n = gif.frames.length
        ∧ gif.path = osPathJoin frame_folder (name ++ ".gif"))
    ∧ (∃ gif n, (make_gif_optimized true listing read readCost encodeCost frame_folder
          duration name true false).2
            = .written gif n
                (((retainedFiles listing).map
                    (fun f => readCost (osPathJoin frame_folder f))).sum + encodeCost)
        ∧ n = gif.frames.length
        ∧ gif.path = osPathJoin frame_folder (name ++ ".gif")) := by
  constructor
  · exact ⟨_, _, fast_written_eq listing read readCost encodeCost frame_folder duration name
      hne, rfl, rfl⟩
  · exact ⟨_, _, fallback_written_eq listing read readCost encodeCost frame_folder duration
      name true false rfl hne hok, rfl, rfl⟩

/-- Witness for the amended C9 at a concrete input: one readable frame,
load cost 4, encode cost 3; the fast backend reports 3 and the fallback
reports 7. -/
theorem reported_stats_and_timing_witness :
    (∃ gif n, (make_gif_optimized true ["a.png"] (fun _ => some 5) (fun _ => 4) 3 "d" 1
          "demo" true true).2 = .written gif n 3
        ∧ n = gif.frames.length
        ∧ gif.path = osPathJoin "d" ("demo" ++ ".gif"))
    ∧ (∃ gif n, (make_gif_optimized true ["a.png"] (fun _ => some 5) (fun _ => 4) 3 "d" 1
          "demo" true false).2
            = .written gif n
                (((retainedFiles ["a.png"]).map (fun f => (fun _ => 4) (osPathJoin "d" f))).sum
                  + 3)
        ∧ n = gif.frames.length
        ∧ gif.path = osPathJoin "d" ("demo" ++ ".gif")) :=
  reported_stats_and_timing ["a.png"] (fun _ => some 5) (fun _ => 4) 3 "d" 1 "demo"
    (by decide) (by decide)

/-- C10: on the fast path, when the directory retains at least one `.png`
file but every retained frame fails to load, the encode call is still
invoked with the empty image list — the outcome is a written (zero-frame)
GIF, not the `noFrames` no-op — while the `noFrames` early return happens
exactly when the retained list itself is empty, before any load. -/
theorem fast_path_empty_encode_when_all_reads_fail (listing : List String)
    (read : String → Option Img) (readCost : String → Nat) (encodeCost : Nat)
    (frame_folder : String) (duration : ℚ) (name : String)
    (hne : retainedFiles listing ≠ [])
    (hfail : ∀ f ∈ retainedFiles listing, read (osPathJoin frame_folder f) = none) :
    (make_gif_optimized true listing read readCost encodeCost frame_folder duration name
        true true).2
      = .written ⟨osPathJoin frame_folder (name ++ ".gif"), [], duration, 0⟩ 0 encodeCost := by
  have h := fast_written_eq listing read readCost encodeCost frame_folder duration name hne
  rw [List.filterMap_eq_nil_iff.mpr hfail] at h
  simpa using h

/-- Witness for C10 at a concrete input: one retained frame whose read
fails; the outcome is a written zero-frame GIF, not the no-op. -/
theorem fast_path_empty_encode_when_all_reads_fail_witness :
    (make_gif_optimized true ["a.png"] (fun _ => none) (fun _ => 4) 3 "d" 1 "demo"
        true true).2
      = .written ⟨osPathJoin "d" ("demo" ++ ".gif"), [], 1, 0⟩ 0 3 :=
  fast_path_empty_encode_when_all_reads_fail ["a.png"] (fun _ => none) (fun _ => 4) 3 "d" 1
    "demo" (by decide) (by decide)

end OptimizedFunctions
